import Mathlib

/-!
Verification of the task orchestration engine of the acontext repository:
the batch claim / recovery controller (`process_session_pending_message`,
src/server/core/acontext_core/service/controller/message.py), the decision
loop (`task_agent_curd`, src/server/core/acontext_core/llm/agent/task.py),
the three context-packing functions, and the `insert_task` tool applier.

The Python code is shallowly embedded: pure functions become Lean
functions; the database-backed state becomes an explicit `EngineState`
record threaded through the controller; external effects (the data layer's
Result values and the LLM completion call) become oracle parameters; a
raised Python exception becomes an explicit `raised` outcome.  Data-layer
modules that are absent from the repository snapshot
(service/data/message.py, service/data/task.py, schema/session/*,
task_lib/insert.py) are modelled from the specification and marked so in
their doc comments.
-/

namespace Acontext

/-! ### Schema: LLM response shapes (schema/llm.py) -/

/-- Embeds `LLMFunction` (schema/llm.py): a called function's name and its
raw JSON argument string. -/
structure LLMFunction where
  name : String
  arguments : Option String
deriving Repr, DecidableEq

/-- Embeds `LLMToolCall` (schema/llm.py).  The `type` literal is kept as a
string; the engine never inspects it. -/
structure LLMToolCall where
  id : String
  function : Option LLMFunction
  type : String
deriving Repr, DecidableEq

/-- Embeds `LLMResponse` (schema/llm.py) restricted to the fields the
decision loop reads: `tool_calls` (an optional list) and `content`.
`json_content` and `function_call` are never read by the engine. -/
structure LLMResponse where
  role : String
  content : Option String
  tool_calls : Option (List LLMToolCall)
deriving Repr, DecidableEq

/-! ### Schema: tasks and messages -/

/-- Modelled from the spec: schema/session/task.py is absent from the
snapshot.  Task status domain of §3: pending, running, success, failed. -/
inductive TaskStatus where
  | pending
  | running
  | success
  | failed
deriving Repr, DecidableEq

/-- Modelled from the spec: the string value of a task status, as stored by
the ORM (`TaskStatus.RUNNING.value` in the controller). -/
def TaskStatus.value : TaskStatus → String
  | .pending => "pending"
  | .running => "running"
  | .success => "success"
  | .failed => "failed"

/-- Modelled from the spec: schema/session/task.py is absent.  `TaskSchema`
carries the fields the engine reads: durable id, dense `order`,
description and status (§3). -/
structure TaskSchema where
  id : Nat
  order : Nat
  description : String
  status : TaskStatus
deriving Repr, DecidableEq

/-- Modelled from the spec: `TaskSchema.to_string` is absent; §4.2 only
requires a stable rendering of order, description, status. -/
def TaskSchema.to_string (t : TaskSchema) : String :=
  "task_order=" ++ toString t.order ++ " " ++ t.description ++ " [" ++ t.status.value ++ "]"

/-- Embeds `MessageBlob` (schema/session/message.py, absent from the
snapshot; its construction sites in the controller show the fields
message_id, role, parts). -/
structure MessageBlob where
  message_id : Nat
  role : String
  parts : String
deriving Repr, DecidableEq

/-- Modelled from the spec: `MessageBlob.to_string` is absent; §4.2 says
history is rendered without identifiers, so the rendering reads only the
role and content, never `message_id`. -/
def MessageBlob.to_string (m : MessageBlob) : String :=
  m.role ++ ": " ++ m.parts

/-- Modelled from the spec: the Task-Message Link of §3 — a message is
linked to at most one task, or tagged as planning, or unlinked. -/
inductive MsgLink where
  | unlinked
  | toTask (task_id : Nat)
  | planning
deriving Repr, DecidableEq

/-- Modelled from the spec: the ORM message row (schema/orm is absent).
`session_task_process_status` is the claim marker the controller writes
(`m.session_task_process_status = TaskStatus.RUNNING.value`); it is kept
as the raw string the code stores. -/
structure Message where
  id : Nat
  role : String
  parts : String
  session_task_process_status : String
  created_at : Nat
  link : MsgLink
deriving Repr, DecidableEq

/-- The ledger state for one session: its message stream (ordered by
`created_at`, the order the data layer returns) and its task list. -/
structure EngineState where
  messages : List Message
  tasks : List TaskSchema
deriving Repr, DecidableEq

/-! ### Context packers (llm/agent/task.py lines 16-28) -/

/-- Embeds `pack_task_section` (task.py): one `"- " + t.to_string()` line
per task, joined by newlines. -/
def pack_task_section (tasks : List TaskSchema) : String :=
  String.intercalate "\n" (tasks.map (fun t => "- " ++ t.to_string))

/-- Embeds `pack_previous_messages_section` (task.py): the `to_string`
renderings joined by newlines. -/
def pack_previous_messages_section (messages : List MessageBlob) : String :=
  String.intercalate "\n" (messages.map (fun m => m.to_string))

/-- The wrapper applied to one enumerated message in
`pack_current_message_with_ids`: the f-string
`f"<message id=(i)> (m.to_string()) </message>"` of task.py line 27. -/
def wrap_message_with_id (i : Nat) (m : MessageBlob) : String :=
  "<message id=" ++ toString i ++ "> " ++ m.to_string ++ " </message>"

/-- The list of wrapped lines built by `enumerate(messages)` inside
`pack_current_message_with_ids`. -/
def current_message_lines (messages : List MessageBlob) : List String :=
  messages.enum.map (fun p => wrap_message_with_id p.1 p.2)

/-- Embeds `pack_current_message_with_ids` (task.py lines 25-28): wrapped
enumerated messages joined by newlines. -/
def pack_current_message_with_ids (messages : List MessageBlob) : String :=
  String.intercalate "\n" (current_message_lines messages)

/-! ### Prompt packing (llm/prompt/task.py) -/

/-- Embeds `TaskPrompt.pack_task_input` (prompt/task.py): the markdown
input assembled from the three packed sections. -/
def TaskPrompt.pack_task_input (previous_messages current_message_with_ids current_tasks : String) : String :=
  "## Current Tasks:\n" ++ current_tasks ++
  "\n\n## Previous Messages:\n" ++ previous_messages ++
  "\n\n## Current Message with IDs:\n" ++ current_message_with_ids ++
  "\n\nPlease analyze the above information and determine the actions.\n"

/-! ### External effects as oracles

The engine calls four fallible collaborators: three data-layer functions
returning `Result` values (`fetch_session_messages`,
`fetch_previous_messages_by_datetime`, `fetch_current_tasks`) and the LLM
completion call `llm_complete`.  A `Result` carries either a value or an
error (`eil`); independently, any `await` may raise a Python exception.
Both channels are represented. -/

/-- The outcome of one `llm_complete` invocation: a raised exception, a
returned `Result` carrying an error (`eil`), or a successful response. -/
inductive LLMOutcome where
  | raised (e : String)
  | err (e : String)
  | ok (resp : LLMResponse)

/-- One invocation's external nondeterminism.  The `Option String` fields
are the `eil` errors of the three data-layer fetches (`none` = success);
`llm` maps the invocation index and the prompt string of each
`llm_complete` call to its outcome. -/
structure RunOracle where
  fetch_messages_err : Option String
  fetch_previous_err : Option String
  fetch_tasks_err : Option String
  llm : Nat → String → LLMOutcome

/-! ### Data layer (service/data/message.py, service/data/task.py — absent
from the snapshot, modelled from the spec) -/

/-- Modelled from the spec: `MD.fetch_session_messages(session, sid,
status="pending")` — select the session's messages with
`processing_status = pending`, ordered by creation time (§4.1 step 1).
`EngineState.messages` is kept in creation order, which `filter`
preserves. -/
def fetch_session_messages (st : EngineState) : List Message :=
  st.messages.filter (fun m => m.session_task_process_status == "pending")

/-- Modelled from the spec: `MD.fetch_previous_messages_by_datetime` — a
window of the most recent messages strictly preceding the claimed batch
(§4.1 step 3, default window 1). -/
def fetch_previous_messages_by_datetime (st : EngineState) (t : Nat) (lim : Nat) : List Message :=
  ((st.messages.filter (fun m => m.created_at < t)).reverse.take lim).reverse

/-- Modelled from the spec: `TD.fetch_current_tasks` — the session's
current task list (§4.3 step 1 reads it to pack the task section). -/
def fetch_current_tasks (st : EngineState) : List TaskSchema :=
  st.tasks

/-- Modelled from the spec: `MD.rollback_message_status_to_pending(session,
ids)` — revert the `processing_status` of exactly the messages with the
given ids back to `pending` (§4.1 step 6); no other row or field is
touched. -/
def rollback_message_status_to_pending (st : EngineState) (ids : List Nat) : EngineState :=
  { st with messages := st.messages.map (fun m =>
      if m.id ∈ ids then { m with session_task_process_status := "pending" } else m) }

/-- The claim step of the controller (message.py lines 19-21): the fetched
pending messages — and exactly those — get
`session_task_process_status = TaskStatus.RUNNING.value`, then the
transaction is flushed. -/
def claim_pending_messages (st : EngineState) : EngineState :=
  { st with messages := st.messages.map (fun m =>
      if m.session_task_process_status == "pending" then
        { m with session_task_process_status := "running" } else m) }

/-- Conversion from an ORM message row to the `MessageBlob` the controller
hands to the decision loop (message.py lines 30-37). -/
def Message.toBlob (m : Message) : MessageBlob :=
  ⟨m.id, m.role, m.parts⟩

/-! ### Decision loop (llm/agent/task.py lines 31-75) -/

/-- How `task_agent_curd` finished: it returned a success `Result`, it
returned a `Result` carrying an error (`eil`), or an exception escaped
it. -/
inductive CurdResult where
  | ok
  | errResult (e : String)
  | raised (e : String)
deriving Repr, DecidableEq

/-- An instrumented return value for the decision loop: how it finished,
the prompt argument of every `llm_complete` invocation in order, and the
final value of the `already_iterations` counter. -/
structure CurdTrace where
  result : CurdResult
  prompts : List String
  already_iterations : Nat
deriving Repr, DecidableEq

/-- Embeds the `while already_iterations < max_iterations` loop of
`task_agent_curd` (task.py lines 54-74).  The packed sections are the
loop's free variables: they are computed once before the loop and the
loop body never recomputes them.  The body faithfully reproduces the
source's control flow: on an `eil` error `return r`; on a response with
no tool calls `break`; otherwise the source hits the unconditional
`break` on the line before `use_tools = llm_return.tool_calls`, so the
statements `use_tools = ...` and `already_iterations += 1` are
unreachable and no tool call is ever applied. -/
def curd_loop (oracle : RunOracle)
    (task_section previous_messages_section current_messages_section : String)
    (max_iterations already_iterations : Nat) (prompts : List String) : CurdTrace :=
  if already_iterations < max_iterations then
    match oracle.llm prompts.length (TaskPrompt.pack_task_input
        previous_messages_section current_messages_section task_section) with
    | .raised e => ⟨.raised e, prompts ++ [TaskPrompt.pack_task_input
        previous_messages_section current_messages_section task_section], already_iterations⟩
    | .err e => ⟨.errResult e, prompts ++ [TaskPrompt.pack_task_input
        previous_messages_section current_messages_section task_section], already_iterations⟩
    | .ok resp =>
      if (resp.tool_calls.getD []).isEmpty then
        ⟨.ok, prompts ++ [TaskPrompt.pack_task_input
          previous_messages_section current_messages_section task_section], already_iterations⟩
      else
        ⟨.ok, prompts ++ [TaskPrompt.pack_task_input
          previous_messages_section current_messages_section task_section], already_iterations⟩
  else
    ⟨.ok, prompts, already_iterations⟩

/-- Embeds `task_agent_curd` (task.py lines 31-75): fetch the current
tasks (returning the error `Result` on failure), pack the three sections
once, then run the decision loop with `already_iterations = 0`.  The
`@track_process` decorator (util/generate_ids.py, absent from the
snapshot) is taken to be behavior-preserving instrumentation. -/
def task_agent_curd (st : EngineState) (oracle : RunOracle)
    (previous_messages messages : List MessageBlob) (max_iterations : Nat) : CurdTrace :=
  match oracle.fetch_tasks_err with
  | some e => ⟨.errResult e, [], 0⟩
  | none =>
    let tasks := fetch_current_tasks st
    let task_section := pack_task_section tasks
    let previous_messages_section := pack_previous_messages_section previous_messages
    let current_messages_section := pack_current_message_with_ids messages
    curd_loop oracle task_section previous_messages_section current_messages_section
      max_iterations 0 []

/-! ### Batch claim / recovery controller
(service/controller/message.py lines 10-46) -/

/-- How `process_session_pending_message` finished: a normal return
(Python `return` or falling off the end) or a re-raised exception. -/
inductive RunOutcome where
  | returned
  | raised (e : String)
deriving Repr, DecidableEq

/-- Embeds `process_session_pending_message` (message.py lines 10-46),
returning the final ledger state and the outcome.

Control flow of the source, line by line: on an `eil` from
`fetch_session_messages`, log and `return` (line 18).  Set the fetched
messages' status to running and flush (lines 19-21), collect
`pending_message_ids` (line 22), then evaluate `messages[0].created_at`
(line 24) — on an empty batch this raises `IndexError`, which the
`except` clause turns into a rollback of zero ids followed by `raise e`.
On an `eil` from `fetch_previous_messages_by_datetime`, log and `return`
(line 29) with the claim left in place.  Otherwise build the blobs and
call `task_agent_curd` (line 39); its returned `Result` is never
inspected, so only an exception escaping it reaches the `except` clause,
which rolls the claimed ids back to pending and re-raises (lines 40-46). -/
def process_session_pending_message (st : EngineState) (oracle : RunOracle) :
    EngineState × RunOutcome :=
  match oracle.fetch_messages_err with
  | some _ => (st, .returned)
  | none =>
    let pending := fetch_session_messages st
    let st1 := claim_pending_messages st
    let pending_message_ids := pending.map Message.id
    match pending with
    | [] =>
      (rollback_message_status_to_pending st1 pending_message_ids, .raised "IndexError")
    | m0 :: _ =>
      match oracle.fetch_previous_err with
      | some _ => (st1, .returned)
      | none =>
        let previous := fetch_previous_messages_by_datetime st1 m0.created_at 1
        let messages_data := pending.map Message.toBlob
        let previous_messages_data := previous.map Message.toBlob
        let trace := task_agent_curd st1 oracle previous_messages_data messages_data 3
        match trace.result with
        | .raised e =>
          (rollback_message_status_to_pending st1 pending_message_ids, .raised e)
        | _ => (st1, .returned)

/-! ### The insert_task tool applier -/

/-- Modelled from the spec: llm/tool/task_lib/insert.py is absent from the
snapshot (only its registration in task_tools.py remains).  §4.3:
`insert_task(description, order, ...)` validates that `order` is a legal
position in `1..current_length+1`; on success it renumbers every task at
position `order` or later by +1 and inserts the new task (initial status
pending, §3) at the requested position.  `none` models the rejected
call. -/
def insert_task_apply (tasks : List TaskSchema) (new_id : Nat) (description : String)
    (ord : Nat) : Option (List TaskSchema) :=
  if 1 ≤ ord ∧ ord ≤ tasks.length + 1 then
    some ((tasks.map (fun t =>
        if ord ≤ t.order then { t with order := t.order + 1 } else t))
      ++ [⟨new_id, ord, description, TaskStatus.pending⟩])
  else
    none

/-- The order renumbering applied to every pre-existing order value by a
successful `insert_task` at position `ord`. -/
def bump_order (ord k : Nat) : Nat :=
  if ord ≤ k then k + 1 else k

lemma map_bump_below (ord a : Nat) (hle : a + 1 ≤ ord) :
    (List.range' 1 a).map (bump_order ord) = List.range' 1 a := by
  nth_rewrite 2 [show List.range' 1 a = (List.range' 1 a).map id from (List.map_id _).symm]
  apply List.map_congr_left
  intro k hk
  rcases List.mem_range'.mp hk with ⟨i, hi, rfl⟩
  unfold bump_order
  rw [if_neg]
  · rfl
  · omega

lemma map_bump_above (ord c : Nat) :
    (List.range' ord c).map (bump_order ord) = List.range' (ord + 1) c := by
  have h1 : (List.range' ord c).map (bump_order ord) = (List.range' ord c).map (1 + ·) := by
    apply List.map_congr_left
    intro k hk
    rcases List.mem_range'.mp hk with ⟨i, hi, rfl⟩
    unfold bump_order
    rw [if_pos]
    · omega
    · omega
  rw [h1, List.map_add_range', Nat.add_comm]

lemma map_bump_range' (ord n : Nat) (h1 : 1 ≤ ord) (h2 : ord ≤ n + 1) :
    (List.range' 1 n).map (bump_order ord) =
      List.range' 1 (ord - 1) ++ List.range' (ord + 1) (n - (ord - 1)) := by
  obtain ⟨a, rfl⟩ : ∃ a, ord = a + 1 := ⟨ord - 1, by omega⟩
  have hsplit : List.range' 1 a ++ List.range' (1 + a) (n - a) = List.range' 1 n := by
    rw [List.range'_append_1]
    congr 1
    omega
  rw [← hsplit, List.map_append, map_bump_below (a + 1) a (by omega)]
  have : (1 + a) = (a + 1) := by omega
  rw [this, map_bump_above]
  simp

/-- C7: every successful `insert_task` application has validated that the
requested order lies in `1..current_length+1`, and it keeps the session's
task order values a dense permutation of `1..len(tasks)`: if the orders
were a permutation of `1..n` before the insert, they are a permutation of
`1..n+1` after it. -/
theorem insert_task_keeps_orders_dense
    (tasks : List TaskSchema) (new_id : Nat) (description : String) (ord : Nat)
    (out : List TaskSchema)
    (h : insert_task_apply tasks new_id description ord = some out)
    (hperm : List.Perm (tasks.map TaskSchema.order) (List.range' 1 tasks.length)) :
    (1 ≤ ord ∧ ord ≤ tasks.length + 1) ∧
      List.Perm (out.map TaskSchema.order) (List.range' 1 (tasks.length + 1)) := by
  unfold insert_task_apply at h
  split at h
  case isFalse => exact absurd h (by simp)
  case isTrue hv =>
    refine ⟨hv, ?_⟩
    obtain rfl : (tasks.map (fun t =>
        if ord ≤ t.order then { t with order := t.order + 1 } else t))
        ++ [(⟨new_id, ord, description, TaskStatus.pending⟩ : TaskSchema)] = out :=
      (Option.some.injEq _ _).mp h
    have hmap : ((tasks.map (fun t =>
        if ord ≤ t.order then { t with order := t.order + 1 } else t))).map TaskSchema.order
        = (tasks.map TaskSchema.order).map (bump_order ord) := by
      rw [List.map_map, List.map_map]
      apply List.map_congr_left
      intro t _
      by_cases hc : ord ≤ t.order
      · simp [bump_order, hc]
      · simp [bump_order, hc]
    rw [List.map_append, hmap]
    have hb : List.Perm ((tasks.map TaskSchema.order).map (bump_order ord))
        ((List.range' 1 tasks.length).map (bump_order ord)) := hperm.map _
    have hsplit := map_bump_range' ord tasks.length hv.1 hv.2
    have p1 : List.Perm
        (((tasks.map TaskSchema.order).map (bump_order ord))
          ++ ([(⟨new_id, ord, description, TaskStatus.pending⟩ : TaskSchema)].map TaskSchema.order))
        ((List.range' 1 (ord - 1) ++ List.range' (ord + 1) (tasks.length - (ord - 1)))
          ++ [ord]) := by
      rw [← hsplit]
      exact hb.append_right _
    have p2 : List.Perm
        ((List.range' 1 (ord - 1) ++ List.range' (ord + 1) (tasks.length - (ord - 1))) ++ [ord])
        (List.range' 1 (ord - 1) ++ (ord :: List.range' (ord + 1) (tasks.length - (ord - 1)))) := by
      rw [List.append_assoc]
      exact List.Perm.append_left _ (List.perm_append_singleton _ _)
    have p3 : List.range' 1 (ord - 1) ++ (ord :: List.range' (ord + 1) (tasks.length - (ord - 1)))
        = List.range' 1 (tasks.length + 1) := by
      have hcons : (ord :: List.range' (ord + 1) (tasks.length - (ord - 1)))
          = List.range' ord ((tasks.length - (ord - 1)) + 1) := by
        rw [List.range'_succ]
      rw [hcons]
      obtain ⟨a, rfl⟩ : ∃ a, ord = a + 1 := ⟨ord - 1, by omega⟩
      have h1a : a + 1 = 1 + a := by omega
      rw [show (a + 1 - 1) = a from by omega, h1a, List.range'_append_1]
      congr 1
      omega
    exact p1.trans (p2.trans (p3 ▸ List.Perm.refl _))

/-- Witness for C7: inserting "write report" at position 1 into a
one-task session renumbers the existing task to order 2 and yields orders
that are a permutation of 1..2. -/
theorem insert_task_keeps_orders_dense_witness :
    (1 ≤ 1 ∧ 1 ≤ [(⟨1, 1, "collect data", TaskStatus.pending⟩ : TaskSchema)].length + 1) ∧
      List.Perm ([(⟨1, 2, "collect data", TaskStatus.pending⟩ : TaskSchema),
        ⟨2, 1, "write report", TaskStatus.pending⟩].map TaskSchema.order)
        (List.range' 1 ([(⟨1, 1, "collect data", TaskStatus.pending⟩ : TaskSchema)].length + 1)) :=
  insert_task_keeps_orders_dense
    [⟨1, 1, "collect data", TaskStatus.pending⟩] 2 "write report" 1
    [⟨1, 2, "collect data", TaskStatus.pending⟩, ⟨2, 1, "write report", TaskStatus.pending⟩]
    (by decide) (by decide)

/-! ### Context packer theorems -/

/-- C8: the current-messages section wraps each claimed message with its
zero-based position in the claimed batch — not its durable id — and joins
the wrapped messages by newlines in batch order: the line at position `i`
is exactly `<message id=i> rendering </message>` for the batch's `i`-th
message. -/
theorem current_messages_use_positional_ids
    (ms : List MessageBlob) (i : Nat) (m : MessageBlob)
    (h : ms[i]? = some m) :
    (current_message_lines ms)[i]? =
      some ("<message id=" ++ toString i ++ "> " ++ m.to_string ++ " </message>") ∧
    pack_current_message_with_ids ms = String.intercalate "\n" (current_message_lines ms) := by
  refine ⟨?_, rfl⟩
  simp [current_message_lines, wrap_message_with_id, List.enum, h]

/-- Witness for C8: in a two-message batch with durable ids 5 and 7, the
second line uses positional id 1 (not the durable id 7). -/
theorem current_messages_use_positional_ids_witness :
    ([(⟨5, "user", "hi"⟩ : MessageBlob), ⟨7, "assistant", "ok"⟩][1]? =
      some (⟨7, "assistant", "ok"⟩ : MessageBlob)) ∧
    ((current_message_lines [⟨5, "user", "hi"⟩, ⟨7, "assistant", "ok"⟩])[1]? =
      some ("<message id=" ++ toString 1 ++ "> " ++
        (⟨7, "assistant", "ok"⟩ : MessageBlob).to_string ++ " </message>") ∧
    pack_current_message_with_ids [⟨5, "user", "hi"⟩, ⟨7, "assistant", "ok"⟩] =
      String.intercalate "\n" (current_message_lines [⟨5, "user", "hi"⟩, ⟨7, "assistant", "ok"⟩])) :=
  ⟨rfl, current_messages_use_positional_ids
    [⟨5, "user", "hi"⟩, ⟨7, "assistant", "ok"⟩] 1 ⟨7, "assistant", "ok"⟩ rfl⟩

lemma wrap_enumFrom_congr (l1 : List MessageBlob) : ∀ (n : Nat) (l2 : List MessageBlob),
    l1.map MessageBlob.to_string = l2.map MessageBlob.to_string →
    (List.enumFrom n l1).map (fun p => wrap_message_with_id p.1 p.2) =
    (List.enumFrom n l2).map (fun p => wrap_message_with_id p.1 p.2) := by
  induction l1 with
  | nil =>
    intro n l2 h
    cases l2 with
    | nil => rfl
    | cons b l2 => simp at h
  | cons a l1 ih =>
    intro n l2 h
    cases l2 with
    | nil => simp at h
    | cons b l2 =>
      simp only [List.map_cons, List.cons.injEq] at h
      simp only [List.enumFrom_cons, List.map_cons]
      rw [show wrap_message_with_id n a = wrap_message_with_id n b from by
        unfold wrap_message_with_id
        rw [h.1]]
      rw [ih (n + 1) l2 h.2]

/-- C9: the three context-packing functions are deterministic and free of
hidden inputs: their outputs are functions of the rendered inputs alone
(in particular two runs on equal input sequences produce identical
strings), and being pure Lean functions of their arguments they have no
side effects on the inputs. -/
theorem packing_deterministic
    (ts1 ts2 : List TaskSchema) (ps1 ps2 cs1 cs2 : List MessageBlob)
    (ht : ts1.map TaskSchema.to_string = ts2.map TaskSchema.to_string)
    (hp : ps1.map MessageBlob.to_string = ps2.map MessageBlob.to_string)
    (hc : cs1.map MessageBlob.to_string = cs2.map MessageBlob.to_string) :
    pack_task_section ts1 = pack_task_section ts2 ∧
    pack_previous_messages_section ps1 = pack_previous_messages_section ps2 ∧
    pack_current_message_with_ids cs1 = pack_current_message_with_ids cs2 := by
  refine ⟨?_, ?_, ?_⟩
  · unfold pack_task_section
    have hmap : ts1.map (fun t => "- " ++ t.to_string) = ts2.map (fun t => "- " ++ t.to_string) := by
      rw [show (fun t : TaskSchema => "- " ++ t.to_string)
            = (fun s => "- " ++ s) ∘ TaskSchema.to_string from rfl]
      rw [← List.map_map, ← List.map_map, ht]
    rw [hmap]
  · unfold pack_previous_messages_section
    congr 1
  · unfold pack_current_message_with_ids current_message_lines
    congr 1
    exact wrap_enumFrom_congr cs1 0 cs2 hc

/-- Witness for C9: packing two batches that differ only in durable
message ids (which the renderings omit) yields identical sections. -/
theorem packing_deterministic_witness :
    ([(⟨1, 1, "collect data", TaskStatus.pending⟩ : TaskSchema)].map TaskSchema.to_string =
      [(⟨1, 1, "collect data", TaskStatus.pending⟩ : TaskSchema)].map TaskSchema.to_string) ∧
    (pack_task_section [⟨1, 1, "collect data", TaskStatus.pending⟩] =
      pack_task_section [⟨1, 1, "collect data", TaskStatus.pending⟩] ∧
    pack_previous_messages_section [⟨3, "user", "hello"⟩] =
      pack_previous_messages_section [⟨4, "user", "hello"⟩] ∧
    pack_current_message_with_ids [⟨0, "user", "hi"⟩] =
      pack_current_message_with_ids [⟨7, "user", "hi"⟩]) :=
  ⟨rfl, packing_deterministic
    [⟨1, 1, "collect data", TaskStatus.pending⟩] [⟨1, 1, "collect data", TaskStatus.pending⟩]
    [⟨3, "user", "hello"⟩] [⟨4, "user", "hello"⟩]
    [⟨0, "user", "hi"⟩] [⟨7, "user", "hi"⟩] rfl rfl rfl⟩

/-! ### Controller theorems: recovery path -/

/-- The set of durable ids the controller collects into
`pending_message_ids` (message.py line 22): the ids of the messages
fetched as pending, i.e. the claimed batch. -/
def claimed_ids (st : EngineState) : List Nat :=
  (fetch_session_messages st).map Message.id

lemma process_raised_eq (st : EngineState) (oracle : RunOracle) (st2 : EngineState) (e : String)
    (h : process_session_pending_message st oracle = (st2, RunOutcome.raised e)) :
    st2 = rollback_message_status_to_pending (claim_pending_messages st) (claimed_ids st) := by
  unfold process_session_pending_message at h
  cases hfm : oracle.fetch_messages_err with
  | some e1 =>
    rw [hfm] at h
    simp at h
  | none =>
    rw [hfm] at h
    simp only at h
    cases hp : fetch_session_messages st with
    | nil =>
      rw [hp] at h
      simp only at h
      have h1 := congrArg Prod.fst h
      simp only at h1
      rw [← h1, claimed_ids, hp]
    | cons m0 rest =>
      rw [hp] at h
      simp only at h
      cases hfp : oracle.fetch_previous_err with
      | some e2 =>
        rw [hfp] at h
        simp at h
      | none =>
        rw [hfp] at h
        simp only at h
        set tr := task_agent_curd (claim_pending_messages st) oracle
          ((fetch_previous_messages_by_datetime (claim_pending_messages st) m0.created_at 1).map
            Message.toBlob)
          ((m0 :: rest).map Message.toBlob) 3 with htr
        cases hres : tr.result with
        | ok =>
          rw [hres] at h
          simp at h
        | errResult e3 =>
          rw [hres] at h
          simp at h
        | raised e4 =>
          rw [hres] at h
          simp only [Prod.mk.injEq] at h
          rw [← h.1, claimed_ids, hp]

lemma claim_then_rollback_forall2 (l : List Message) (cids : List Nat)
    (hin : ∀ m ∈ l, m.session_task_process_status = "pending" → m.id ∈ cids)
    (hout : ∀ m ∈ l, m.session_task_process_status ≠ "pending" → m.id ∉ cids) :
    List.Forall₂ (fun m1 m2 =>
        (m1.id ∈ cids → m2 = { m1 with session_task_process_status := "pending" }) ∧
        (m1.id ∉ cids → m2 = m1))
      (l.map (fun m => if m.session_task_process_status == "pending"
          then { m with session_task_process_status := "running" } else m))
      ((l.map (fun m => if m.session_task_process_status == "pending"
          then { m with session_task_process_status := "running" } else m)).map
        (fun m => if m.id ∈ cids then { m with session_task_process_status := "pending" } else m)) := by
  induction l with
  | nil => exact List.Forall₂.nil
  | cons a l ih =>
    simp only [List.map_cons]
    refine List.Forall₂.cons ?_ (ih
      (fun m hm hpm => hin m (List.mem_cons_of_mem a hm) hpm)
      (fun m hm hpm => hout m (List.mem_cons_of_mem a hm) hpm))
    by_cases hpa : a.session_task_process_status = "pending"
    · have hid : a.id ∈ cids := hin a (List.mem_cons_self a l) hpa
      constructor
      · intro _
        simp [hpa, hid]
      · intro hno
        exact absurd (show _ from by simp [hpa]; exact hid) hno
    · have hid : a.id ∉ cids := hout a (List.mem_cons_self a l) hpa
      constructor
      · intro hmem
        have hia : (if a.session_task_process_status == "pending"
            then { a with session_task_process_status := "running" } else a) = a := by
          simp [beq_iff_eq, hpa]
        rw [hia] at hmem
        exact absurd hmem hid
      · intro _
        simp [beq_iff_eq, hpa, hid]

/-- C10: when the failure-path rollback runs, the recovery step changes
the `processing_status` of exactly the messages claimed in this
invocation (the ids collected into `pending_message_ids`): relative to
the post-claim state, every claimed message is set back to `pending` with
all other fields intact, and every task and every message outside the
claimed set is left unchanged.  (Message ids are assumed unique, as they
are database primary keys.) -/
theorem recovery_rolls_back_exactly_claimed
    (st : EngineState) (oracle : RunOracle) (st2 : EngineState) (e : String)
    (hn : (st.messages.map Message.id).Nodup)
    (h : process_session_pending_message st oracle = (st2, RunOutcome.raised e)) :
    st2.tasks = (claim_pending_messages st).tasks ∧
    List.Forall₂ (fun m1 m2 =>
        (m1.id ∈ claimed_ids st → m2 = { m1 with session_task_process_status := "pending" }) ∧
        (m1.id ∉ claimed_ids st → m2 = m1))
      (claim_pending_messages st).messages st2.messages := by
  obtain rfl := process_raised_eq st oracle st2 e h
  constructor
  · rfl
  · have hin : ∀ m ∈ st.messages, m.session_task_process_status = "pending" →
        m.id ∈ claimed_ids st := by
      intro m hm hpm
      exact List.mem_map_of_mem _ (List.mem_filter.mpr ⟨hm, by simp [hpm]⟩)
    have hout : ∀ m ∈ st.messages, m.session_task_process_status ≠ "pending" →
        m.id ∉ claimed_ids st := by
      intro m hm hpm hmem
      rcases List.mem_map.mp hmem with ⟨m1, hm1, heq⟩
      have hm1mem : m1 ∈ st.messages := (List.mem_filter.mp hm1).1
      have hm1p : m1.session_task_process_status = "pending" := by
        have := (List.mem_filter.mp hm1).2
        simpa using this
      have : m1 = m := List.inj_on_of_nodup_map hn hm1mem hm heq
      exact hpm (this ▸ hm1p)
    exact claim_then_rollback_forall2 st.messages (claimed_ids st) hin hout

/-- Witness for C10: a session with one pending and one already-running
message; the model call raises; the rollback touches exactly the claimed
message (id 0) and leaves the other message and the task list unchanged. -/
theorem recovery_rolls_back_exactly_claimed_witness :
    (([(⟨0, "user", "hi", "pending", 0, MsgLink.unlinked⟩ : Message),
       ⟨1, "user", "old", "running", 1, MsgLink.unlinked⟩].map Message.id).Nodup ∧
      process_session_pending_message
        ⟨[⟨0, "user", "hi", "pending", 0, MsgLink.unlinked⟩,
          ⟨1, "user", "old", "running", 1, MsgLink.unlinked⟩],
         [⟨1, 1, "collect data", TaskStatus.pending⟩]⟩
        ⟨none, none, none, fun _ _ => LLMOutcome.raised "boom"⟩ =
        (⟨[⟨0, "user", "hi", "pending", 0, MsgLink.unlinked⟩,
           ⟨1, "user", "old", "running", 1, MsgLink.unlinked⟩],
          [⟨1, 1, "collect data", TaskStatus.pending⟩]⟩, RunOutcome.raised "boom")) ∧
    ((⟨[⟨0, "user", "hi", "pending", 0, MsgLink.unlinked⟩,
        ⟨1, "user", "old", "running", 1, MsgLink.unlinked⟩],
       [⟨1, 1, "collect data", TaskStatus.pending⟩]⟩ : EngineState).tasks =
      (claim_pending_messages
        ⟨[⟨0, "user", "hi", "pending", 0, MsgLink.unlinked⟩,
          ⟨1, "user", "old", "running", 1, MsgLink.unlinked⟩],
         [⟨1, 1, "collect data", TaskStatus.pending⟩]⟩).tasks ∧
    List.Forall₂ (fun m1 m2 =>
        (m1.id ∈ claimed_ids
            ⟨[⟨0, "user", "hi", "pending", 0, MsgLink.unlinked⟩,
              ⟨1, "user", "old", "running", 1, MsgLink.unlinked⟩],
             [⟨1, 1, "collect data", TaskStatus.pending⟩]⟩ →
          m2 = { m1 with session_task_process_status := "pending" }) ∧
        (m1.id ∉ claimed_ids
            ⟨[⟨0, "user", "hi", "pending", 0, MsgLink.unlinked⟩,
              ⟨1, "user", "old", "running", 1, MsgLink.unlinked⟩],
             [⟨1, 1, "collect data", TaskStatus.pending⟩]⟩ → m2 = m1))
      (claim_pending_messages
        ⟨[⟨0, "user", "hi", "pending", 0, MsgLink.unlinked⟩,
          ⟨1, "user", "old", "running", 1, MsgLink.unlinked⟩],
         [⟨1, 1, "collect data", TaskStatus.pending⟩]⟩).messages
      ([⟨0, "user", "hi", "pending", 0, MsgLink.unlinked⟩,
        ⟨1, "user", "old", "running", 1, MsgLink.unlinked⟩] : List Message)) :=
  ⟨⟨by decide, rfl⟩,
    recovery_rolls_back_exactly_claimed
      ⟨[⟨0, "user", "hi", "pending", 0, MsgLink.unlinked⟩,
        ⟨1, "user", "old", "running", 1, MsgLink.unlinked⟩],
       [⟨1, 1, "collect data", TaskStatus.pending⟩]⟩
      ⟨none, none, none, fun _ _ => LLMOutcome.raised "boom"⟩
      ⟨[⟨0, "user", "hi", "pending", 0, MsgLink.unlinked⟩,
        ⟨1, "user", "old", "running", 1, MsgLink.unlinked⟩],
       [⟨1, 1, "collect data", TaskStatus.pending⟩]⟩
      "boom" (by decide) rfl⟩

lemma rollback_sets_pending (st : EngineState) (ids : List Nat) :
    ∀ m ∈ (rollback_message_status_to_pending st ids).messages, m.id ∈ ids →
      m.session_task_process_status = "pending" := by
  intro m hm hid
  unfold rollback_message_status_to_pending at hm
  rcases List.mem_map.mp hm with ⟨m0, hm0, rfl⟩
  by_cases hc : m0.id ∈ ids
  · simp [hc]
  · exfalso
    apply hc
    simp only [if_neg hc] at hid
    exact hid

/-- C1 counterexample: a session with one pending message, where every
data-layer fetch succeeds and the model completion call fails through the
`Result` channel (`llm_complete` returns a `Result` whose error slot is
set, the `if eil: return r` branch of task.py line 65).  The engine
returns normally — no exception reaches the caller — and the claimed
message is left in `running`, not reverted to `pending`: the
model-invocation failure is silently swallowed, contradicting the claim. -/
theorem model_error_result_swallowed_counterexample :
    process_session_pending_message
      ⟨[⟨0, "user", "hi", "pending", 0, MsgLink.unlinked⟩], []⟩
      ⟨none, none, none, fun _ _ => LLMOutcome.err "model invocation failed"⟩ =
      (⟨[⟨0, "user", "hi", "running", 0, MsgLink.unlinked⟩], []⟩, RunOutcome.returned) := rfl

/-- C1 (amended): only failures that are raised as exceptions trigger the
recovery path: if, after a non-empty batch is claimed, the model
invocation raises (rather than returning an error `Result`), the
controller reverts the claimed messages' `processing_status` back to
`pending` and re-raises that same exception to the caller. -/
theorem raised_failure_rolls_back_and_reraises
    (st : EngineState) (oracle : RunOracle) (e : String)
    (hfm : oracle.fetch_messages_err = none)
    (hfp : oracle.fetch_previous_err = none)
    (hft : oracle.fetch_tasks_err = none)
    (hllm : ∀ i p, oracle.llm i p = LLMOutcome.raised e)
    (hne : fetch_session_messages st ≠ []) :
    process_session_pending_message st oracle =
      (rollback_message_status_to_pending (claim_pending_messages st) (claimed_ids st),
        RunOutcome.raised e) ∧
    ∀ m ∈ (process_session_pending_message st oracle).1.messages,
      m.id ∈ claimed_ids st → m.session_task_process_status = "pending" := by
  have heq : process_session_pending_message st oracle =
      (rollback_message_status_to_pending (claim_pending_messages st) (claimed_ids st),
        RunOutcome.raised e) := by
    unfold process_session_pending_message
    rw [hfm]
    simp only
    cases hp : fetch_session_messages st with
    | nil => exact absurd hp hne
    | cons m0 rest =>
      rw [hfp]
      simp only
      unfold task_agent_curd
      rw [hft]
      simp only
      unfold curd_loop
      rw [if_pos (by omega : 0 < 3)]
      simp only [List.length_nil]
      rw [hllm 0 _]
      simp only [claimed_ids, hp]
  refine ⟨heq, ?_⟩
  rw [heq]
  exact rollback_sets_pending _ _

/-- Witness for C1's amended theorem: one pending message, a model call
that raises; the run ends with the exception re-raised and the claimed
message back at `pending`. -/
theorem raised_failure_rolls_back_and_reraises_witness :
    (fetch_session_messages ⟨[⟨0, "user", "hi", "pending", 0, MsgLink.unlinked⟩], []⟩ ≠ [] ∧
      process_session_pending_message
        ⟨[⟨0, "user", "hi", "pending", 0, MsgLink.unlinked⟩], []⟩
        ⟨none, none, none, fun _ _ => LLMOutcome.raised "timeout"⟩ =
        (rollback_message_status_to_pending
          (claim_pending_messages ⟨[⟨0, "user", "hi", "pending", 0, MsgLink.unlinked⟩], []⟩)
          (claimed_ids ⟨[⟨0, "user", "hi", "pending", 0, MsgLink.unlinked⟩], []⟩),
          RunOutcome.raised "timeout")) ∧
    ∀ m ∈ (process_session_pending_message
        ⟨[⟨0, "user", "hi", "pending", 0, MsgLink.unlinked⟩], []⟩
        ⟨none, none, none, fun _ _ => LLMOutcome.raised "timeout"⟩).1.messages,
      m.id ∈ claimed_ids ⟨[⟨0, "user", "hi", "pending", 0, MsgLink.unlinked⟩], []⟩ →
      m.session_task_process_status = "pending" := by
  have h := raised_failure_rolls_back_and_reraises
    ⟨[⟨0, "user", "hi", "pending", 0, MsgLink.unlinked⟩], []⟩
    ⟨none, none, none, fun _ _ => LLMOutcome.raised "timeout"⟩
    "timeout" rfl rfl rfl (fun _ _ => rfl) (by decide)
  exact ⟨⟨by decide, h.1⟩, h.2⟩

/-! ### The placeholder success and loop paths -/

/-- C2 (code bug): a successful run on a non-empty pending batch — every
fetch succeeds and the model returns a normal response with no tool
calls — terminates with the claimed message still at `running`.  No code
path in the controller ever writes `processed`, so the claimed
`pending → running → processed` success path is cut short at `running`. -/
theorem success_leaves_claimed_messages_running :
    process_session_pending_message
      ⟨[⟨0, "user", "please collect the data", "pending", 0, MsgLink.unlinked⟩], []⟩
      ⟨none, none, none, fun _ _ => LLMOutcome.ok ⟨"assistant", some "ok", none⟩⟩ =
      (⟨[⟨0, "user", "please collect the data", "running", 0, MsgLink.unlinked⟩], []⟩,
        RunOutcome.returned) := rfl

/-- C3 (code bug): invoking the engine on a session with no pending
messages does not return a no-op result: the unguarded
`messages[0].created_at` at message.py line 24 raises `IndexError`, which
the recovery clause re-raises after a rollback of zero ids.  Task and
message state are left untouched, but the call raises instead of
returning. -/
theorem empty_pending_run_raises_index_error :
    process_session_pending_message
      ⟨[⟨0, "user", "old message", "processed", 0, MsgLink.unlinked⟩],
        [⟨1, 1, "collect data", TaskStatus.pending⟩]⟩
      ⟨none, none, none, fun _ _ => LLMOutcome.ok ⟨"assistant", none, none⟩⟩ =
      (⟨[⟨0, "user", "old message", "processed", 0, MsgLink.unlinked⟩],
        [⟨1, 1, "collect data", TaskStatus.pending⟩]⟩, RunOutcome.raised "IndexError") := rfl

/-- C4 (code bug): with `max_iterations = 3` and a model response carrying
two non-finish tool calls, the decision loop still performs exactly one
model invocation and ends with `already_iterations = 0`: the unconditional
`break` at task.py line 70 exits the loop before `use_tools` or the
counter increment can run, so the loop never proceeds to a second round. -/
theorem decision_loop_single_round_despite_tool_calls :
    task_agent_curd ⟨[], [⟨1, 1, "collect data", TaskStatus.pending⟩]⟩
      ⟨none, none, none, fun _ _ => LLMOutcome.ok ⟨"assistant", none,
        some [⟨"call_1", some ⟨"insert_task", some "description=write report, order=2"⟩,
                "function"⟩,
              ⟨"call_2", some ⟨"update_task", some "task_id=1, status=running"⟩,
                "function"⟩]⟩⟩
      [] [⟨10, "user", "collect the data please"⟩] 3 =
      ⟨CurdResult.ok,
        [TaskPrompt.pack_task_input
          (pack_previous_messages_section [])
          (pack_current_message_with_ids [⟨10, "user", "collect the data please"⟩])
          (pack_task_section [⟨1, 1, "collect data", TaskStatus.pending⟩])], 0⟩ := rfl

/-- C5 (code bug): the spec's scenario — one pending task
`(1, "collect data", pending)`, two newly arrived messages, and a model
round returning `update_task(task_id=1, status=running)`,
`append_messages_to_task(task_id=1, message_ids=[0,1])`, `finish` —
ends with the task still `pending`, both messages unlinked and left at
`running`: the returned tool calls are never applied, because the
statement that would read them (`use_tools = llm_return.tool_calls`,
task.py line 71) sits after the unconditional `break` and the applier
registry is only ever used to build schemas. -/
theorem scenario_tool_calls_never_applied :
    process_session_pending_message
      ⟨[⟨5, "user", "background", "processed", 0, MsgLink.unlinked⟩,
        ⟨10, "user", "I will collect the data now", "pending", 1, MsgLink.unlinked⟩,
        ⟨11, "assistant", "Starting data collection", "pending", 2, MsgLink.unlinked⟩],
       [⟨1, 1, "collect data", TaskStatus.pending⟩]⟩
      ⟨none, none, none, fun _ _ => LLMOutcome.ok ⟨"assistant", some "updating the task",
        some [⟨"call_1", some ⟨"update_task", some "task_id=1, status=running"⟩, "function"⟩,
              ⟨"call_2", some ⟨"append_messages_to_task",
                some "task_id=1, message_ids=[0, 1]"⟩, "function"⟩,
              ⟨"call_3", some ⟨"finish", none⟩, "function"⟩]⟩⟩ =
      (⟨[⟨5, "user", "background", "processed", 0, MsgLink.unlinked⟩,
         ⟨10, "user", "I will collect the data now", "running", 1, MsgLink.unlinked⟩,
         ⟨11, "assistant", "Starting data collection", "running", 2, MsgLink.unlinked⟩],
        [⟨1, 1, "collect data", TaskStatus.pending⟩]⟩, RunOutcome.returned) := rfl

/-- C6 (code bug): the three context sections are packed exactly once,
before the loop (task.py lines 44-46); every prompt the loop ever hands
to the model equals the one assembled from the sections of the entry
state, so no re-packing from the ledger's current state happens between
rounds (and the per-round `TaskCtx` is never constructed at all). -/
theorem every_prompt_is_the_entry_packing
    (st : EngineState) (oracle : RunOracle) (previous_messages messages : List MessageBlob)
    (max_iterations : Nat) (p : String)
    (hp : p ∈ (task_agent_curd st oracle previous_messages messages max_iterations).prompts) :
    p = TaskPrompt.pack_task_input
      (pack_previous_messages_section previous_messages)
      (pack_current_message_with_ids messages)
      (pack_task_section (fetch_current_tasks st)) := by
  unfold task_agent_curd at hp
  cases hft : oracle.fetch_tasks_err with
  | some e =>
    rw [hft] at hp
    simp at hp
  | none =>
    rw [hft] at hp
    simp only at hp
    unfold curd_loop at hp
    by_cases hit : 0 < max_iterations
    · rw [if_pos hit] at hp
      cases hl : oracle.llm (List.length []) (TaskPrompt.pack_task_input
          (pack_previous_messages_section previous_messages)
          (pack_current_message_with_ids messages)
          (pack_task_section (fetch_current_tasks st))) with
      | raised e =>
        rw [hl] at hp
        simp only [List.nil_append, List.mem_singleton] at hp
        exact hp
      | err e =>
        rw [hl] at hp
        simp only [List.nil_append, List.mem_singleton] at hp
        exact hp
      | ok resp =>
        rw [hl] at hp
        dsimp only at hp
        by_cases hc : (resp.tool_calls.getD []).isEmpty
        · rw [if_pos hc] at hp
          simp only [List.nil_append, List.mem_singleton] at hp
          exact hp
        · rw [if_neg hc] at hp
          simp only [List.nil_append, List.mem_singleton] at hp
          exact hp
    · rw [if_neg hit] at hp
      simp at hp

/-- Witness for C6: a run with budget 1 sends exactly the prompt packed
from the entry state, and the theorem identifies it as such. -/
theorem every_prompt_is_the_entry_packing_witness :
    (TaskPrompt.pack_task_input (pack_previous_messages_section [])
        (pack_current_message_with_ids []) (pack_task_section [])) ∈
      (task_agent_curd ⟨[], []⟩
        ⟨none, none, none, fun _ _ => LLMOutcome.ok ⟨"assistant", none, none⟩⟩
        [] [] 1).prompts ∧
    (TaskPrompt.pack_task_input (pack_previous_messages_section [])
        (pack_current_message_with_ids []) (pack_task_section [])) =
      TaskPrompt.pack_task_input
        (pack_previous_messages_section [])
        (pack_current_message_with_ids [])
        (pack_task_section (fetch_current_tasks ⟨[], []⟩)) := by
  have hmem : (TaskPrompt.pack_task_input (pack_previous_messages_section [])
      (pack_current_message_with_ids []) (pack_task_section [])) ∈
      (task_agent_curd ⟨[], []⟩
        ⟨none, none, none, fun _ _ => LLMOutcome.ok ⟨"assistant", none, none⟩⟩
        [] [] 1).prompts := List.mem_singleton.mpr rfl
  exact ⟨hmem, every_prompt_is_the_entry_packing ⟨[], []⟩
    ⟨none, none, none, fun _ _ => LLMOutcome.ok ⟨"assistant", none, none⟩⟩ [] [] 1 _ hmem⟩

end Acontext
